import Mathlib

/-!
Verification development for the user-data auto-sync coordinator
(`UserDataAutoSyncService`) and the extensions synchroniser
(`ExtensionsSynchroniser`) of the modified-vscode repository.

The coordinator's failure classification, backoff and rate-limiting logic and
the synchroniser's apply/skip-list/migration pipeline are embedded shallowly:
asynchronous collaborator calls become fields of an environment record
returning `Except`, stateful methods become functions from state to
state-plus-emitted-actions, and the effectful steps of a sync cycle are
recorded as an explicit event trace.
-/

namespace ModifiedVSCode

/-- Extension identity: `{ id: string, uuid?: string }`
(`IExtensionIdentifier`). -/
structure ExtIdentifier where
  id : String
  uuid : Option String := none
deriving DecidableEq, Repr

/-- `ExtensionType` from the extension-management platform: built-in (system)
extensions versus user-installed ones. -/
inductive ExtensionType where
  | System
  | User
deriving DecidableEq, Repr

/-- `ISyncExtension`: one item of the synchronized extension state.  The
legacy `enabled` field only occurs in version-1 payloads and is removed by
migration. -/
structure SyncExtension where
  identifier : ExtIdentifier
  version : Option String := none
  disabled : Option Bool := none
  installed : Option Bool := none
  enabled : Option Bool := none
deriving DecidableEq, Repr

/-- `ILocalExtension` as the synchroniser consumes it: identity, type and the
manifest version used for the already-installed check. -/
structure LocalExtension where
  identifier : ExtIdentifier
  type : ExtensionType
  manifestVersion : String := ""
deriving DecidableEq, Repr

/-- `IGalleryExtension` as the synchroniser consumes it: identity plus the
resolved version. -/
structure GalleryExtension where
  identifier : ExtIdentifier
  version : String
deriving DecidableEq, Repr

/-- `toLowerCase` on a string, written out over the character list (the
builtin `String.toLower` computes identically but does not reduce inside
the kernel). -/
def lowerStr (s : String) : String := ⟨s.data.map Char.toLower⟩

/-- Modelled from the spec: `areSameExtensions` (identity equality, from
`extensionManagementUtil`, not part of the sources at hand).  The spec states
identity equality is case-insensitive on `id`, or exact on `uuid` when both
sides have one. -/
def areSameExtensions (a b : ExtIdentifier) : Bool :=
  match a.uuid, b.uuid with
  | some u1, some u2 => u1 == u2
  | _, _ => lowerStr a.id == lowerStr b.id

/-! ## Auto-sync coordinator (`UserDataAutoSyncService`) -/

/-- The normalized error kinds (`UserDataSyncErrorCode`) the coordinator
branches on; every remaining code is collapsed into `other` with its tag. -/
inductive SyncErrorCode where
  | turnedOff
  | sessionExpired
  | localTooManyRequests
  | other (tag : String)
deriving DecidableEq, Repr

/-- The coordinator state touched by `onDidFinishSync`: the failure counter
and whether auto-sync is currently enabled. -/
structure CoordState where
  successiveFailures : Nat
  autoSyncEnabled : Bool
deriving DecidableEq, Repr

/-- External effects performed by `onDidFinishSync`, in order:
`userDataSyncService.resetLocal()`, `this.disable()` and firing `_onError`. -/
inductive CoordAction where
  | resetLocal
  | disable
  | fireError (code : SyncErrorCode)
deriving DecidableEq, Repr

/-- `UserDataAutoSyncService.onDidFinishSync`: classify a finished cycle.
The input is the (already normalized) error code, `none` meaning success;
the result is the updated coordinator state plus the emitted actions in
program order. -/
def onDidFinishSync (s : CoordState) (error : Option SyncErrorCode) :
    CoordState × List CoordAction :=
  match error with
  | none => ({ s with successiveFailures := 0 }, [])
  | some code =>
    if code = .turnedOff ∨ code = .sessionExpired then
      ({ s with autoSyncEnabled := false },
        [.resetLocal, .disable, .fireError code])
    else if code = .localTooManyRequests then
      ({ s with autoSyncEnabled := false }, [.disable, .fireError code])
    else
      ({ s with successiveFailures := s.successiveFailures + 1 },
        [.fireError code])

/-- `RESOURCE_ENABLEMENT_SOURCE` from the coordinator module. -/
def RESOURCE_ENABLEMENT_SOURCE : String := "resourceEnablement"

/-- The coordinator state read by `triggerAutoSync`: whether an auto-sync
loop instance exists, the time (ms) the last cycle started (`undefined`
before the first cycle), the failure counter, and the accumulated pending
sources buffer. -/
structure TriggerState where
  autoSyncActive : Bool
  lastSyncTriggerTime : Option Nat
  successiveFailures : Nat
  pendingSources : List String
deriving DecidableEq, Repr

/-- Outcome of one `triggerAutoSync` call: the pending delayer was cancelled
(no active loop), the trigger was dropped by the rate limit, or a debounced
sync was scheduled with the given delay and accumulated source list. -/
inductive TriggerOutcome where
  | cancelled
  | dropped
  | scheduled (delayMs : Nat) (accumulated : List String)
deriving DecidableEq, Repr

/-- The delay passed to the trigger delayer:
`successiveFailures ? 1000 * 1 * Math.min(Math.pow(2, f), 60) : 1000`. -/
def triggerDelay (successiveFailures : Nat) : Nat :=
  if successiveFailures ≠ 0 then 1000 * 1 * min (2 ^ successiveFailures) 60
  else 1000

/-- `UserDataAutoSyncService.triggerAutoSync`.  `allSyncResources` stands for
`ALL_SYNC_RESOURCES` (the registered sync-resource-kind names), `now` for
`new Date().getTime()`.  `Math.round((now - last) / 1000)` on natural
milliseconds is `(now - last + 500) / 1000`; JavaScript truthiness of
`this.lastSyncTriggerTime` requires the value to be defined and non-zero. -/
def shouldDropTrigger (allSyncResources : List String) (s : TriggerState)
    (sources : List String) (now : Nat) : Bool :=
  let hasToLimitSync : Bool :=
    !(sources.contains RESOURCE_ENABLEMENT_SOURCE) &&
      allSyncResources.all (fun r => !(sources.contains r))
  hasToLimitSync &&
    (match s.lastSyncTriggerTime with
      | some t => t != 0 && decide ((now - t + 500) / 1000 < 10)
      | none => false)

/-- `UserDataAutoSyncService.triggerAutoSync` (continued): no active loop
cancels the delayer; a rate-limited trigger is dropped; otherwise sources
are accumulated and a debounced sync is scheduled with the backoff delay. -/
def triggerAutoSync (allSyncResources : List String) (s : TriggerState)
    (sources : List String) (now : Nat) : TriggerState × TriggerOutcome :=
  if ¬ s.autoSyncActive then (s, .cancelled)
  else if shouldDropTrigger allSyncResources s sources now then (s, .dropped)
  else
    ({ s with pendingSources := s.pendingSources ++ sources },
      .scheduled (triggerDelay s.successiveFailures)
        (s.pendingSources ++ sources))

/-! ## Extensions synchroniser (`ExtensionsSynchroniser`)

Collaborator services (extension management, enablement, gallery, remote
store) are modelled as an environment of `Except`-valued responses; a thrown
exception is an `Except.error`.  The concurrent per-item `Promise.all` of
`updateLocalExtensions` is modelled sequentially in list order: this only
fixes the order of pushes into the shared accumulators and which of several
failures is reported, neither of which the properties below depend on. -/

/-- An exception thrown by a collaborator call. -/
structure SyncErr where
  tag : String
deriving DecidableEq, Repr

/-- `ISyncData`: schema version plus the (already JSON-parsed) item list. -/
structure SyncData where
  version : Nat
  content : List SyncExtension
deriving DecidableEq, Repr

/-- `IRemoteUserData`: remote reference plus payload (`none` if the remote
was never written). -/
structure RemoteUserData where
  ref : String
  syncData : Option SyncData := none
deriving DecidableEq, Repr

/-- `ILastSyncUserData`: the locally persisted last-sync snapshot. -/
structure LastSyncUserData where
  ref : String
  syncData : Option SyncData := none
  skippedExtensions : Option (List SyncExtension) := none
deriving DecidableEq, Repr

/-- Result shape of the merge engine (`extensionsMerge.merge`). -/
structure MergeResult where
  added : List SyncExtension
  removed : List ExtIdentifier
  updated : List SyncExtension
  remote : Option (List SyncExtension)
deriving DecidableEq, Repr

/-- Environment of collaborator responses for one cycle.  `mergeFn` stands
for the external merge engine (`extensionsMerge.merge`, outside the sources
at hand), kept abstract so theorems hold for every merge behaviour. -/
structure SyncEnv where
  enabled : Bool := true
  getInstalledAll : Except SyncErr (List LocalExtension)
  getInstalledUser : Except SyncErr (List LocalExtension) := .ok []
  getInstalledSystem : Except SyncErr (List LocalExtension) := .ok []
  getDisabledExtensions : Except SyncErr (List ExtIdentifier) := .ok []
  ignoredExtensions : List String := []
  getCompatibleExtension :
    ExtIdentifier → Option String → Except SyncErr (Option GalleryExtension) :=
      fun _ _ => .ok none
  enableExtension : ExtIdentifier → Except SyncErr Unit := fun _ => .ok ()
  disableExtension : ExtIdentifier → Except SyncErr Unit := fun _ => .ok ()
  installFromGallery : GalleryExtension → Except SyncErr Unit := fun _ => .ok ()
  uninstall : LocalExtension → Except SyncErr Unit := fun _ => .ok ()
  writeRemote : List SyncExtension → Option String → Except SyncErr String :=
    fun _ _ => .ok ""
  remoteUserData : RemoteUserData := { ref := "" }
  lastSyncUserData : Option LastSyncUserData := none
  mergeFn : List SyncExtension → Option (List SyncExtension) →
    Option (List SyncExtension) → List SyncExtension → List String →
      MergeResult :=
    fun _ _ _ _ _ => { added := [], removed := [], updated := [], remote := none }

/-- `ExtensionsSynchroniser.getLocalExtensions`: view the installed set as
sync items — `disabled` when the enablement service lists the identity,
`installed` when the extension is user-installed. -/
def toSyncExtension (disabledExtensions : List ExtIdentifier)
    (le : LocalExtension) : SyncExtension :=
  let syncExtension : SyncExtension := { identifier := le.identifier }
  let syncExtension :=
    if disabledExtensions.any (fun d => areSameExtensions d le.identifier)
    then { syncExtension with disabled := some true } else syncExtension
  if le.type = ExtensionType.User
  then { syncExtension with installed := some true } else syncExtension

/-- (continued) `getLocalExtensions` maps `toSyncExtension` over the
installed set. -/
def getLocalExtensions (installedExtensions : List LocalExtension)
    (disabledExtensions : List ExtIdentifier) : List SyncExtension :=
  installedExtensions.map (toSyncExtension disabledExtensions)

/-- `ExtensionsSynchroniser.hasLocalData`: any collaborator exception is
swallowed and yields `false`. -/
def hasLocalData (env : SyncEnv) : Bool :=
  match env.getInstalledAll, env.getDisabledExtensions with
  | .ok installed, .ok disabled =>
    (getLocalExtensions installed disabled).any fun e =>
      e.installed.getD false || e.disabled.getD false
  | _, _ => false

/-- The per-item transformation inside
`ExtensionsSynchroniser.parseAndMigrateExtensions`: v1 turns
`enabled === false` into `disabled: true` and deletes `enabled`; v2 marks
items absent from the installed system set as `installed`. -/
def migrateExtension (version : Nat) (systemExtensions : List LocalExtension)
    (extension : SyncExtension) : SyncExtension :=
  let extension :=
    if version = 1 then
      { (if extension.enabled = some false
         then { extension with disabled := some true } else extension) with
        enabled := none }
    else extension
  if version = 2 then
    if systemExtensions.all
        (fun installed => !(areSameExtensions installed.identifier extension.identifier))
    then { extension with installed := some true } else extension
  else extension

/-- `ExtensionsSynchroniser.parseAndMigrateExtensions`: parse the payload and
upgrade version-1 and version-2 items in memory; later versions pass
through.  The installed system set is fetched only for old versions. -/
def parseAndMigrateExtensions (env : SyncEnv) (syncData : SyncData) :
    Except SyncErr (List SyncExtension) :=
  if syncData.version = 1 ∨ syncData.version = 2 then
    match env.getInstalledSystem with
    | .error err => .error err
    | .ok systemExtensions =>
      .ok (syncData.content.map (migrateExtension syncData.version systemExtensions))
  else .ok syncData.content

/-- The `removed`-branch of `updateLocalExtensions`: uninstall every
user-installed extension matching a removed identity, collecting the
identities for removal from the skip list.  Uninstall exceptions
propagate. -/
def uninstallExtensions (env : SyncEnv) (extensionsToRemove : List LocalExtension)
    (removeFromSkipped : List ExtIdentifier) : Except SyncErr (List ExtIdentifier) :=
  match extensionsToRemove with
  | [] => .ok removeFromSkipped
  | extensionToRemove :: rest =>
    match env.uninstall extensionToRemove with
    | .error err => .error err
    | .ok _ =>
      uninstallExtensions env rest (removeFromSkipped ++ [extensionToRemove.identifier])

/-- (continued) the `removed`-branch proper: select the installed
user-extensions matching a removed identity and uninstall them. -/
def processRemoved (env : SyncEnv) (removed : List ExtIdentifier) :
    Except SyncErr (List ExtIdentifier) :=
  match env.getInstalledUser with
  | .error err => .error err
  | .ok installedExtensions =>
    uninstallExtensions env
      (installedExtensions.filter fun installed =>
        removed.any fun r => areSameExtensions installed.identifier r)
      []

/-- The catch clause of the per-item `try` in `updateLocalExtensions`: a
caught exception turns into skipping the item. -/
def catchSkip (e : SyncExtension)
    (tryResult : Except SyncErr (List ExtIdentifier)) :
    Except SyncErr (List ExtIdentifier × List SyncExtension) :=
  match tryResult with
  | .ok removeFromSkipped => .ok (removeFromSkipped, [])
  | .error _ => .ok ([], [e])

/-- The resolved (non-builtin) part of the per-item body of
`updateLocalExtensions`: resolve against the gallery (an exception here
propagates — the call sits outside the `try`); if unresolvable, skip the
item; otherwise run enablement and conditional install inside the `try`
whose catch clause is `catchSkip`.  Returns the contributions
`(removeFromSkipped, addToSkipped)` of this item. -/
def processResolved (env : SyncEnv) (e : SyncExtension)
    (installedExtension : Option LocalExtension) :
    Except SyncErr (List ExtIdentifier × List SyncExtension) :=
  match env.getCompatibleExtension e.identifier e.version with
  | .error err => .error err
  | .ok none => .ok ([], [e])
  | .ok (some extension) =>
    catchSkip e
      (match (if e.disabled.getD false then
                env.disableExtension extension.identifier
              else env.enableExtension extension.identifier) with
      | .error err => .error err
      | .ok _ =>
        match installedExtension with
        | some installed =>
          if installed.manifestVersion ≠ extension.version then
            match env.installFromGallery extension with
            | .error err => .error err
            | .ok _ => .ok [extension.identifier]
          else .ok []
        | none =>
          match env.installFromGallery extension with
          | .error err => .error err
          | .ok _ => .ok [extension.identifier])

/-- One added/updated item of `updateLocalExtensions`: builtin extensions
sync only their enablement (exceptions propagate — no `try` around this
branch); other items go through gallery resolution. -/
def processItem (env : SyncEnv) (e : SyncExtension) :
    Except SyncErr (List ExtIdentifier × List SyncExtension) :=
  match env.getInstalledAll with
  | .error err => .error err
  | .ok installedExtensions =>
    match (installedExtensions.filter fun installed =>
        areSameExtensions installed.identifier e.identifier).head? with
    | some installed =>
      if installed.type = ExtensionType.System then
        match (if e.disabled.getD false then env.disableExtension e.identifier
               else env.enableExtension e.identifier) with
        | .error err => .error err
        | .ok _ => .ok ([e.identifier], [])
      else
        processResolved env e (some installed)
    | none => processResolved env e none

/-- Sequentialized `Promise.all` over the added/updated items: process each
item in order, accumulating its contributions; the first escaping exception
aborts the batch. -/
def processItems (env : SyncEnv) (items : List SyncExtension)
    (removeFromSkipped : List ExtIdentifier) (addToSkipped : List SyncExtension) :
    Except SyncErr (List ExtIdentifier × List SyncExtension) :=
  match items with
  | [] => .ok (removeFromSkipped, addToSkipped)
  | e :: rest =>
    match processItem env e with
    | .error err => .error err
    | .ok (rm, ad) =>
      processItems env rest (removeFromSkipped ++ rm) (addToSkipped ++ ad)

/-- The skip-list recombination at the end of `updateLocalExtensions`:
retain previous entries not applied or removed, then append newly skipped
items whose identity is not yet present. -/
def buildNewSkipped (skippedExtensions : List SyncExtension)
    (removeFromSkipped : List ExtIdentifier)
    (addToSkipped : List SyncExtension) : List SyncExtension :=
  let newSkippedExtensions := skippedExtensions.filter fun skipped =>
    !(removeFromSkipped.any fun e => areSameExtensions e skipped.identifier)
  addToSkipped.foldl
    (fun acc skipped =>
      if acc.any (fun e => areSameExtensions e.identifier skipped.identifier)
      then acc else acc ++ [skipped])
    newSkippedExtensions

/-- `ExtensionsSynchroniser.updateLocalExtensions`. -/
def updateLocalExtensions (env : SyncEnv) (added : List SyncExtension)
    (removed : List ExtIdentifier) (updated : List SyncExtension)
    (skippedExtensions : List SyncExtension) :
    Except SyncErr (List SyncExtension) :=
  match (if removed.isEmpty then .ok [] else processRemoved env removed) with
  | .error err => .error err
  | .ok removeFromSkippedRemovals =>
    match (if added.isEmpty && updated.isEmpty then
            .ok (([], []) : List ExtIdentifier × List SyncExtension)
          else processItems env (added ++ updated) [] []) with
    | .error err => .error err
    | .ok (removeFromSkipped, addToSkipped) =>
      .ok (buildNewSkipped skippedExtensions
        (removeFromSkippedRemovals ++ removeFromSkipped) addToSkipped)

/-- `IExtensionsSyncPreviewResult` — the inputs of the apply step. -/
structure PreviewResult where
  added : List SyncExtension
  removed : List ExtIdentifier
  updated : List SyncExtension
  remote : Option (List SyncExtension)
  remoteUserData : RemoteUserData
  localExtensions : List SyncExtension
  skippedExtensions : List SyncExtension
  lastSyncUserData : Option LastSyncUserData
  hasLocalChanged : Bool
  hasRemoteChanged : Bool
deriving DecidableEq, Repr

/-- The externally observable effects of a cycle, in program order. -/
inductive SyncEvent where
  | mergeCalled (localExtensions : List SyncExtension)
      (remoteExtensions lastSyncExtensions : Option (List SyncExtension))
      (skippedExtensions : List SyncExtension)
  | backupLocal (localExtensions : List SyncExtension)
  | remoteWrite (content : List SyncExtension) (expectedRef : Option String)
  | lastSyncUpdated (ref : String) (skippedExtensions : List SyncExtension)
deriving DecidableEq, Repr

/-- `ExtensionsSynchroniser.version` (schema version 3). -/
def extensionsVersion : Nat := 3

/-- What `ExtensionsSynchroniser.apply` leaves behind: the final remote user
data and the final skip list. -/
structure ApplyOut where
  remoteUserData : RemoteUserData
  skippedExtensions : List SyncExtension
deriving DecidableEq, Repr

/-- The local part of `ExtensionsSynchroniser.apply`: when local state
changed, back up the pre-change local snapshot and run
`updateLocalExtensions`, yielding the updated skip list. -/
def applyLocalStep (env : SyncEnv) (p : PreviewResult) :
    Except SyncErr (List SyncExtension × List SyncEvent) :=
  if p.hasLocalChanged then
    match updateLocalExtensions env p.added p.removed p.updated
        p.skippedExtensions with
    | .error err => .error err
    | .ok sk => .ok (sk, [SyncEvent.backupLocal p.localExtensions])
  else .ok (p.skippedExtensions, [])

/-- The remote part of `ExtensionsSynchroniser.apply`: when the merge
produced remote content, write `JSON.stringify(remote)` to the store —
expected reference `null` on force push, the last known reference
otherwise — and take over the returned reference. -/
def applyRemoteStep (env : SyncEnv) (p : PreviewResult) (forcePush : Bool) :
    Except SyncErr (RemoteUserData × List SyncEvent) :=
  match p.remote with
  | some content =>
    match env.writeRemote content
        (if forcePush then none else some p.remoteUserData.ref) with
    | .error err => .error err
    | .ok newRef =>
      .ok ({ ref := newRef,
             syncData := some { version := extensionsVersion,
                                content := content } },
        [SyncEvent.remoteWrite content
          (if forcePush then none else some p.remoteUserData.ref)])
  | none => .ok (p.remoteUserData, [])

/-- `ExtensionsSynchroniser.apply`: run the local step, then the remote
step, then persist the last-sync snapshot when its reference differs from
the final remote reference. -/
def syncApply (env : SyncEnv) (p : PreviewResult) (forcePush : Bool) :
    Except SyncErr (ApplyOut × List SyncEvent) :=
  match applyLocalStep env p with
  | .error err => .error err
  | .ok localPart =>
    match applyRemoteStep env p forcePush with
    | .error err => .error err
    | .ok remotePart =>
      .ok ({ remoteUserData := remotePart.1, skippedExtensions := localPart.1 },
        localPart.2 ++ remotePart.2 ++
          (if (p.lastSyncUserData.map fun l => l.ref) = some remotePart.1.ref
           then ([] : List SyncEvent)
           else [SyncEvent.lastSyncUpdated remotePart.1.ref localPart.1]))

/-- `ExtensionsSynchroniser.push`: merge current local items against an
absent remote and absent last-sync with an empty skip list, then apply with
force push. -/
def push (env : SyncEnv) : Except SyncErr (List SyncEvent) :=
  if ¬ env.enabled then .ok [] else
  match env.getInstalledAll with
  | .error err => .error err
  | .ok installedExtensions =>
    match env.getDisabledExtensions with
    | .error err => .error err
    | .ok disabledExtensions =>
      let localExtensions :=
        getLocalExtensions installedExtensions disabledExtensions
      let res := env.mergeFn localExtensions none none [] env.ignoredExtensions
      let p : PreviewResult := {
        added := res.added, removed := res.removed, updated := res.updated,
        remote := res.remote,
        remoteUserData := env.remoteUserData,
        localExtensions := localExtensions,
        skippedExtensions := [],
        lastSyncUserData := env.lastSyncUserData,
        hasLocalChanged :=
          !res.added.isEmpty || !res.removed.isEmpty || !res.updated.isEmpty,
        hasRemoteChanged := res.remote.isSome }
      match syncApply env p true with
      | .error err => .error err
      | .ok applyResult =>
        .ok (SyncEvent.mergeCalled localExtensions none none [] ::
          applyResult.2)

/-- Rank used by the comparator in `ExtensionsSynchroniser.format`: items
without a stable id (no uuid) sort before items with one. -/
def uuidRank (e : SyncExtension) : Nat :=
  if e.identifier.uuid.isSome then 1 else 0

/-- The total preorder realised by the comparator in
`ExtensionsSynchroniser.format`: by uuid presence, then lexicographically by
id. -/
def canonLE (e1 e2 : SyncExtension) : Prop :=
  uuidRank e1 < uuidRank e2 ∨
    (uuidRank e1 = uuidRank e2 ∧ e1.identifier.id ≤ e2.identifier.id)

instance : DecidableRel canonLE := fun e1 e2 => by
  unfold canonLE; infer_instance

instance : IsTotal SyncExtension canonLE := by
  constructor
  intro a b
  rcases Nat.lt_trichotomy (uuidRank a) (uuidRank b) with h | h | h
  · exact Or.inl (Or.inl h)
  · rcases le_total a.identifier.id b.identifier.id with hle | hle
    · exact Or.inl (Or.inr ⟨h, hle⟩)
    · exact Or.inr (Or.inr ⟨h.symm, hle⟩)
  · exact Or.inr (Or.inl h)

instance : IsTrans SyncExtension canonLE := by
  constructor
  intro a b c hab hbc
  rcases hab with h1 | ⟨h1, h1le⟩ <;> rcases hbc with h2 | ⟨h2, h2le⟩
  · exact Or.inl (by omega)
  · exact Or.inl (by omega)
  · exact Or.inl (by omega)
  · exact Or.inr ⟨by omega, le_trans h1le h2le⟩

/-- The sort performed by `ExtensionsSynchroniser.format` before
serializing for display (`resolveContent`). -/
def formatList (extensions : List SyncExtension) : List SyncExtension :=
  List.insertionSort canonLE extensions

/-- Canonical order of a serialized item list: no-uuid items first, then
lexicographically by id. -/
def canonicallyOrdered (l : List SyncExtension) : Prop :=
  l.Sorted canonLE

/-! ### Concrete items and environments used by witnesses and
counterexamples -/

def c4item : SyncExtension := { identifier := { id := "x" } }

def envC4 : SyncEnv :=
  { getInstalledAll := .ok [],
    getCompatibleExtension := fun _ _ => .error { tag := "gallery down" } }

def c4aItem : SyncExtension := { identifier := { id := "a" } }

def envC4A : SyncEnv :=
  { getInstalledAll := .ok [],
    getCompatibleExtension := fun ident _ =>
      .ok (some { identifier := ident, version := "1.0" }),
    installFromGallery := fun _ => .error { tag := "install failed" } }

def c5item : SyncExtension :=
  { identifier := { id := "a" }, enabled := some false }

def c5dflt : SyncExtension := { identifier := { id := "" } }

def envC5 : SyncEnv := { getInstalledAll := .ok [] }

def lxC6 : LocalExtension :=
  { identifier := { id := "e" }, type := ExtensionType.User }

def envC6 : SyncEnv :=
  { getInstalledAll := .ok [lxC6],
    writeRemote := fun _ _ => .ok "r1",
    mergeFn := fun localExtensions _ _ _ _ =>
      { added := [], removed := [], updated := [],
        remote := some localExtensions } }

def c7a : SyncExtension := { identifier := { id := "a" } }

def c7b : SyncExtension := { identifier := { id := "b", uuid := some "u-b" } }

def envC7 : SyncEnv :=
  { getInstalledAll := .ok [], writeRemote := fun _ _ => .ok "r2" }

def pC7 : PreviewResult :=
  { added := [], removed := [], updated := [],
    remote := some [c7b, c7a],
    remoteUserData := { ref := "r1" },
    localExtensions := [], skippedExtensions := [],
    lastSyncUserData := some { ref := "r1" },
    hasLocalChanged := false, hasRemoteChanged := true }

def c7out : ApplyOut :=
  { remoteUserData :=
      { ref := "r2",
        syncData := some { version := extensionsVersion,
                           content := [c7b, c7a] } },
    skippedExtensions := [] }

def c8item : SyncExtension := { identifier := { id := "y" } }

def envC8 : SyncEnv := { getInstalledAll := .ok [] }

def pC8 : PreviewResult :=
  { added := [c8item], removed := [], updated := [],
    remote := none,
    remoteUserData := { ref := "r1" },
    localExtensions := [], skippedExtensions := [],
    lastSyncUserData := some { ref := "r1" },
    hasLocalChanged := true, hasRemoteChanged := false }

def c8out : ApplyOut :=
  { remoteUserData := { ref := "r1" }, skippedExtensions := [c8item] }

def pC8B : PreviewResult := { pC8 with lastSyncUserData := none }

def c9s : SyncExtension := { identifier := { id := "s" } }

def c9x : SyncExtension := { identifier := { id := "x" } }

def c9y : SyncExtension := { identifier := { id := "X" } }

def envC9 : SyncEnv := { getInstalledAll := .ok [] }

def envC10E : SyncEnv := { getInstalledAll := .error { tag := "listing failed" } }

def lxC10 : LocalExtension :=
  { identifier := { id := "u" }, type := ExtensionType.User }

def envC10 : SyncEnv := { getInstalledAll := .ok [lxC10] }

/-! ## Theorems -/

/-- C1: `onDidFinishSync` classifies a finished cycle exactly as specified:
success resets the failure counter and does nothing else; a turned-off or
session-expired error resets local state and then disables auto-sync; a
too-many-requests error disables auto-sync without resetting local state;
every other error increments the failure counter, leaves auto-sync running
and surfaces the normalized error through `onError`. -/
theorem c1_finish_sync_classification (s : CoordState)
    (error : Option SyncErrorCode) :
    (error = none →
      (onDidFinishSync s error).1.successiveFailures = 0 ∧
      (onDidFinishSync s error).1.autoSyncEnabled = s.autoSyncEnabled ∧
      (onDidFinishSync s error).2 = []) ∧
    (∀ c, error = some c →
      (c = SyncErrorCode.turnedOff ∨ c = SyncErrorCode.sessionExpired) →
      (onDidFinishSync s error).2 =
        [CoordAction.resetLocal, CoordAction.disable, CoordAction.fireError c] ∧
      (onDidFinishSync s error).1.autoSyncEnabled = false) ∧
    (error = some SyncErrorCode.localTooManyRequests →
      (onDidFinishSync s error).1.autoSyncEnabled = false ∧
      CoordAction.disable ∈ (onDidFinishSync s error).2 ∧
      CoordAction.resetLocal ∉ (onDidFinishSync s error).2) ∧
    (∀ c, error = some c → c ≠ SyncErrorCode.turnedOff →
      c ≠ SyncErrorCode.sessionExpired →
      c ≠ SyncErrorCode.localTooManyRequests →
      (onDidFinishSync s error).1.successiveFailures = s.successiveFailures + 1 ∧
      (onDidFinishSync s error).1.autoSyncEnabled = s.autoSyncEnabled ∧
      CoordAction.fireError c ∈ (onDidFinishSync s error).2 ∧
      CoordAction.disable ∉ (onDidFinishSync s error).2 ∧
      CoordAction.resetLocal ∉ (onDidFinishSync s error).2) := by
  cases error with
  | none => simp [onDidFinishSync]
  | some c => cases c <;> simp [onDidFinishSync]

/-- Witness for C1 at a concrete state and an unclassified error kind. -/
theorem c1_finish_sync_classification_witness :
    (onDidFinishSync ⟨2, true⟩
        (some (SyncErrorCode.other "network"))).1.successiveFailures = 2 + 1 ∧
    (onDidFinishSync ⟨2, true⟩
        (some (SyncErrorCode.other "network"))).1.autoSyncEnabled = true ∧
    CoordAction.fireError (SyncErrorCode.other "network") ∈
      (onDidFinishSync ⟨2, true⟩ (some (SyncErrorCode.other "network"))).2 ∧
    CoordAction.disable ∉
      (onDidFinishSync ⟨2, true⟩ (some (SyncErrorCode.other "network"))).2 ∧
    CoordAction.resetLocal ∉
      (onDidFinishSync ⟨2, true⟩ (some (SyncErrorCode.other "network"))).2 := by
  have h := (c1_finish_sync_classification ⟨2, true⟩
      (some (SyncErrorCode.other "network"))).2.2.2
    (SyncErrorCode.other "network") rfl (by decide) (by decide) (by decide)
  exact h

/-- C2: every trigger that schedules a sync uses delay 1000 ms when the
failure counter is zero and `1000 * min(2^failures, 60)` ms otherwise; in
particular one failure gives 2000 ms, six failures give 60000 ms, and every
count of at least six stays at 60000 ms. -/
theorem c2_backoff_delay (allSyncResources : List String) (s : TriggerState)
    (sources : List String) (now : Nat) (d : Nat) (acc : List String)
    (h : (triggerAutoSync allSyncResources s sources now).2 =
      TriggerOutcome.scheduled d acc) :
    (s.successiveFailures = 0 → d = 1000) ∧
    (s.successiveFailures ≠ 0 → d = 1000 * min (2 ^ s.successiveFailures) 60) ∧
    (s.successiveFailures = 1 → d = 2000) ∧
    (s.successiveFailures = 6 → d = 60000) ∧
    (6 ≤ s.successiveFailures → d = 60000) := by
  have hd : d = triggerDelay s.successiveFailures := by
    unfold triggerAutoSync at h
    split at h
    · simp at h
    · split at h
      · simp at h
      · simp at h
        exact h.1.symm
  subst hd
  refine ⟨?_, ?_, ?_, ?_, ?_⟩
  · intro h0; simp [triggerDelay, h0]
  · intro h0; simp [triggerDelay, h0]
  · intro h0; rw [h0]; decide
  · intro h0; rw [h0]; decide
  · intro h6
    have hne : s.successiveFailures ≠ 0 := by omega
    have hpow : (60 : Nat) ≤ 2 ^ s.successiveFailures := by
      calc (60 : Nat) ≤ 2 ^ 6 := by norm_num
      _ ≤ 2 ^ s.successiveFailures := Nat.pow_le_pow_right (by norm_num) h6
    simp [triggerDelay, hne, min_eq_right hpow]

/-- Witness for C2 at 100 successive failures. -/
theorem c2_backoff_delay_witness :
    ((100 : Nat) = 0 → (60000 : Nat) = 1000) ∧
    ((100 : Nat) ≠ 0 → (60000 : Nat) = 1000 * min (2 ^ 100) 60) ∧
    ((100 : Nat) = 1 → (60000 : Nat) = 2000) ∧
    ((100 : Nat) = 6 → (60000 : Nat) = 60000) ∧
    (6 ≤ (100 : Nat) → (60000 : Nat) = 60000) :=
  c2_backoff_delay [] ⟨true, none, 100, []⟩ ["someActivity"] 0 60000
    ["someActivity"] (by decide)

/-- C3 fails as stated: with the last cycle started 9.6 seconds ago — less
than 10 seconds — and a trigger carrying only an unregistered source, the
code still schedules the sync, because it compares
`Math.round(elapsed / 1000) < 10` and 9.6 s rounds up to 10. -/
theorem c3_rate_limit_counterexample :
    (["windowFocus"] : List String).contains RESOURCE_ENABLEMENT_SOURCE = false ∧
    (["extensions"] : List String).all
      (fun r => !((["windowFocus"] : List String).contains r)) = true ∧
    10600 - 1000 < 10000 ∧
    (triggerAutoSync ["extensions"] ⟨true, some 1000, 0, []⟩ ["windowFocus"]
        10600).2 = TriggerOutcome.scheduled 1000 ["windowFocus"] := by
  decide

/-- C3 amended: while a loop is active, a trigger is dropped iff none of its
sources is the resource-enablement source, none is a registered
sync-resource-kind name, and the last started cycle lies less than 9.5
seconds back — the code rounds the elapsed milliseconds to whole seconds
(half up) before comparing with 10; a trigger carrying the
resource-enablement source is never dropped regardless of timing. -/
theorem c3_rate_limit_amended (allSyncResources : List String)
    (s : TriggerState) (sources : List String) (now : Nat)
    (hactive : s.autoSyncActive = true) :
    ((triggerAutoSync allSyncResources s sources now).2 =
        TriggerOutcome.dropped ↔
      (sources.contains RESOURCE_ENABLEMENT_SOURCE = false ∧
        (∀ r ∈ allSyncResources, sources.contains r = false) ∧
        ∃ t, s.lastSyncTriggerTime = some t ∧ t ≠ 0 ∧
          (now - t + 500) / 1000 < 10)) ∧
    (sources.contains RESOURCE_ENABLEMENT_SOURCE = true →
      (triggerAutoSync allSyncResources s sources now).2 ≠
        TriggerOutcome.dropped) := by
  have hdrop : shouldDropTrigger allSyncResources s sources now = true ↔
      (sources.contains RESOURCE_ENABLEMENT_SOURCE = false ∧
        (∀ r ∈ allSyncResources, sources.contains r = false) ∧
        ∃ t, s.lastSyncTriggerTime = some t ∧ t ≠ 0 ∧
          (now - t + 500) / 1000 < 10) := by
    unfold shouldDropTrigger
    cases hl : s.lastSyncTriggerTime with
    | none => simp
    | some t => simp [bne, and_assoc]
  have hout : (triggerAutoSync allSyncResources s sources now).2 =
      if shouldDropTrigger allSyncResources s sources now then
        TriggerOutcome.dropped
      else
        TriggerOutcome.scheduled (triggerDelay s.successiveFailures)
          (s.pendingSources ++ sources) := by
    unfold triggerAutoSync
    rw [if_neg (by simp [hactive])]
    split <;> rfl
  constructor
  · rw [hout]
    by_cases hC : shouldDropTrigger allSyncResources s sources now = true
    · rw [if_pos hC]
      exact iff_of_true rfl (hdrop.1 hC)
    · rw [if_neg hC]
      exact iff_of_false (by simp) (fun hr => hC (hdrop.2 hr))
  · intro hres
    rw [hout]
    have hfalse : shouldDropTrigger allSyncResources s sources now = false := by
      unfold shouldDropTrigger
      simp only [hres]
      simp
    simp [hfalse]

/-- Witness for C3 amended: a trigger with only an unregistered source,
9.0 seconds after the last cycle start, is dropped. -/
theorem c3_rate_limit_amended_witness :
    ((triggerAutoSync ["extensions"] ⟨true, some 1000, 0, []⟩ ["windowFocus"]
        10000).2 = TriggerOutcome.dropped ↔
      ((["windowFocus"] : List String).contains RESOURCE_ENABLEMENT_SOURCE = false ∧
        (∀ r ∈ (["extensions"] : List String),
          (["windowFocus"] : List String).contains r = false) ∧
        ∃ t, (some 1000 : Option Nat) = some t ∧ t ≠ 0 ∧
          (10000 - t + 500) / 1000 < 10)) ∧
    ((["windowFocus"] : List String).contains RESOURCE_ENABLEMENT_SOURCE = true →
      (triggerAutoSync ["extensions"] ⟨true, some 1000, 0, []⟩ ["windowFocus"]
        10000).2 ≠ TriggerOutcome.dropped) :=
  c3_rate_limit_amended ["extensions"] ⟨true, some 1000, 0, []⟩ ["windowFocus"]
    10000 rfl

theorem toSyncExtension_flag (disabled : List ExtIdentifier)
    (le : LocalExtension) :
    (((toSyncExtension disabled le).installed.getD false ||
        (toSyncExtension disabled le).disabled.getD false) = true) ↔
      (le.type = ExtensionType.User ∨
        disabled.any (fun d => areSameExtensions d le.identifier) = true) := by
  unfold toSyncExtension
  by_cases hd : disabled.any (fun d => areSameExtensions d le.identifier) = true
  · by_cases hu : le.type = ExtensionType.User <;> simp [hd, hu]
  · by_cases hu : le.type = ExtensionType.User <;> simp [hd, hu]

/-- C10: `hasLocalData` never throws — a failure while listing installed
extensions or reading enablement state yields `false`; on success it
returns `true` iff at least one local extension is user-installed or
disabled. -/
theorem c10_has_local_data (env : SyncEnv) :
    (∀ err, env.getInstalledAll = .error err → hasLocalData env = false) ∧
    (∀ err, env.getDisabledExtensions = .error err →
      hasLocalData env = false) ∧
    (∀ installed disabled, env.getInstalledAll = .ok installed →
      env.getDisabledExtensions = .ok disabled →
      (hasLocalData env = true ↔
        ∃ le ∈ installed, le.type = ExtensionType.User ∨
          disabled.any (fun d => areSameExtensions d le.identifier) = true)) := by
  refine ⟨?_, ?_, ?_⟩
  · intro err h
    unfold hasLocalData
    rw [h]
  · intro err h
    unfold hasLocalData
    rw [h]
    cases env.getInstalledAll <;> rfl
  · intro installed disabled h1 h2
    unfold hasLocalData
    rw [h1, h2]
    dsimp only
    rw [List.any_eq_true]
    unfold getLocalExtensions
    constructor
    · rintro ⟨e, he, hf⟩
      obtain ⟨le, hle, rfl⟩ := List.mem_map.1 he
      exact ⟨le, hle, (toSyncExtension_flag disabled le).1 hf⟩
    · rintro ⟨le, hle, hflag⟩
      exact ⟨toSyncExtension disabled le, List.mem_map.2 ⟨le, hle, rfl⟩,
        (toSyncExtension_flag disabled le).2 hflag⟩

/-- Witness for C10: a failing listing yields `false`; a user-installed
extension yields `true`. -/
theorem c10_has_local_data_witness :
    hasLocalData envC10E = false ∧ hasLocalData envC10 = true := by
  constructor
  · exact (c10_has_local_data envC10E).1 { tag := "listing failed" } rfl
  · exact ((c10_has_local_data envC10).2.2 [lxC10] [] rfl rfl).2
      ⟨lxC10, by simp, Or.inl rfl⟩

/-- C5: `parseAndMigrateExtensions` upgrades old payloads purely in memory:
in a version-1 payload every item with `enabled = false` becomes
`disabled = true`, the `enabled` field is removed from every item and all
other fields are untouched; in a version-2 payload every item absent from
the installed system set gets `installed = true` and all other fields are
untouched; a version-3 payload is returned unmodified. -/
theorem c5_migration (env : SyncEnv) (content : List SyncExtension)
    (systemExtensions : List LocalExtension) (d : SyncExtension) (i : Nat)
    (hsys : env.getInstalledSystem = .ok systemExtensions)
    (hi : i < content.length) :
    (∀ out,
      parseAndMigrateExtensions env { version := 1, content := content } =
        .ok out →
      out.length = content.length ∧
      (out.getD i d).enabled = none ∧
      (out.getD i d).disabled =
        (if (content.getD i d).enabled = some false then some true
         else (content.getD i d).disabled) ∧
      (out.getD i d).identifier = (content.getD i d).identifier ∧
      (out.getD i d).version = (content.getD i d).version ∧
      (out.getD i d).installed = (content.getD i d).installed) ∧
    (∀ out,
      parseAndMigrateExtensions env { version := 2, content := content } =
        .ok out →
      out.length = content.length ∧
      (out.getD i d).installed =
        (if systemExtensions.all (fun installed =>
            !(areSameExtensions installed.identifier
              (content.getD i d).identifier))
         then some true else (content.getD i d).installed) ∧
      (out.getD i d).identifier = (content.getD i d).identifier ∧
      (out.getD i d).version = (content.getD i d).version ∧
      (out.getD i d).disabled = (content.getD i d).disabled ∧
      (out.getD i d).enabled = (content.getD i d).enabled) ∧
    parseAndMigrateExtensions env { version := 3, content := content } =
      .ok content := by
  have hget : ∀ (f : SyncExtension → SyncExtension),
      (content.map f).getD i d = f (content.getD i d) := by
    intro f
    rw [List.getD_eq_getElem?_getD, List.getElem?_map,
      List.getElem?_eq_getElem hi, List.getD_eq_getElem?_getD,
      List.getElem?_eq_getElem hi]
    rfl
  refine ⟨?_, ?_, ?_⟩
  · intro out hout
    rw [parseAndMigrateExtensions, if_pos (by norm_num), hsys] at hout
    simp only [Except.ok.injEq] at hout
    subst hout
    refine ⟨by simp, ?_, ?_, ?_, ?_, ?_⟩ <;>
    · rw [hget]
      norm_num [migrateExtension]
      try (split_ifs <;> rfl)
  · intro out hout
    rw [parseAndMigrateExtensions, if_pos (by norm_num), hsys] at hout
    simp only [Except.ok.injEq] at hout
    subst hout
    refine ⟨by simp, ?_, ?_, ?_, ?_, ?_⟩ <;>
    · rw [hget]
      norm_num [migrateExtension]
      try (split_ifs <;> rfl)
  · rw [parseAndMigrateExtensions, if_neg (by norm_num)]

/-- Witness for C5: a version-1 item `{enabled: false}` migrates to
`{disabled: true}` with no `enabled` field, and a version-3 payload passes
through unchanged. -/
theorem c5_migration_witness :
    parseAndMigrateExtensions envC5 { version := 1, content := [c5item] } =
      .ok [{ identifier := { id := "a" }, disabled := some true }] ∧
    (([{ identifier := { id := "a" }, disabled := some true }] :
        List SyncExtension).getD 0 c5dflt).enabled = none ∧
    parseAndMigrateExtensions envC5 { version := 3, content := [c5item] } =
      .ok [c5item] := by
  have h := c5_migration envC5 [c5item] [] c5dflt 0 rfl (by decide)
  exact ⟨rfl,
    (h.1 [{ identifier := { id := "a" }, disabled := some true }] rfl).2.1,
    h.2.2⟩

theorem catchSkip_ok (e : SyncExtension)
    (t : Except SyncErr (List ExtIdentifier)) :
    ∃ out, catchSkip e t = .ok out := by
  cases t with
  | ok rm => exact ⟨(rm, []), rfl⟩
  | error err => exact ⟨([], [e]), rfl⟩

theorem processResolved_ok (env : SyncEnv) (e : SyncExtension)
    (inst : Option LocalExtension) (g : Option GalleryExtension)
    (hg : env.getCompatibleExtension e.identifier e.version = .ok g) :
    ∃ out, processResolved env e inst = .ok out := by
  cases g with
  | none =>
    simp only [processResolved, hg]
    exact ⟨([], [e]), rfl⟩
  | some extension =>
    simp only [processResolved, hg]
    exact catchSkip_ok e _

theorem processItem_ok (env : SyncEnv) (e : SyncExtension)
    (installedAll : List LocalExtension)
    (hall : env.getInstalledAll = .ok installedAll)
    (hgal : ∀ ident v, ∃ g, env.getCompatibleExtension ident v = .ok g)
    (hsys : ∀ installed ∈ installedAll,
      installed.type ≠ ExtensionType.System) :
    ∃ out, processItem env e = .ok out := by
  obtain ⟨g, hg⟩ := hgal e.identifier e.version
  simp only [processItem, hall]
  cases hh : (installedAll.filter fun installed =>
      areSameExtensions installed.identifier e.identifier).head? with
  | none => exact processResolved_ok env e none g hg
  | some installed =>
    have hmem := (List.mem_filter.1 (List.mem_of_mem_head? hh)).1
    dsimp only
    rw [if_neg (hsys installed hmem)]
    exact processResolved_ok env e (some installed) g hg

theorem processItems_ok (env : SyncEnv) (l : List SyncExtension) :
    ∀ rm ad, (∀ e ∈ l, ∃ out, processItem env e = .ok out) →
      ∃ res, processItems env l rm ad = .ok res := by
  induction l with
  | nil =>
    intro rm ad _
    exact ⟨(rm, ad), rfl⟩
  | cons e rest ih =>
    intro rm ad hok
    obtain ⟨out, hout⟩ := hok e (by simp)
    obtain ⟨rm2, ad2⟩ := out
    simp only [processItems, hout]
    exact ih _ _ (fun x hx => hok x (by simp [hx]))

/-- C4 fails as stated: an exception raised while resolving an item against
the gallery escapes `updateLocalExtensions` — the `getCompatibleExtension`
call sits outside the `try` — so the batch rejects and the failing item
appears in no skip list. -/
theorem c4_exception_escape_counterexample :
    updateLocalExtensions envC4 [c4item] [] [] [] =
      .error { tag := "gallery down" } := rfl

/-- C4 amended: exceptions raised while setting enablement or installing a
resolved item are caught inside `updateLocalExtensions`: whenever listing
installed extensions succeeds, every gallery resolution returns without
throwing, no installed extension is a builtin and nothing is removed, the
batch never rejects, whatever the enablement and install collaborators do —
a failing item is skipped and the remaining items are still processed.
Exceptions thrown by the gallery resolution itself, by builtin enablement
or by an uninstall do escape the batch (see the counterexample). -/
theorem c4_per_item_errors_contained (env : SyncEnv)
    (added updated skipped : List SyncExtension)
    (installedAll : List LocalExtension)
    (hall : env.getInstalledAll = .ok installedAll)
    (hgal : ∀ ident v, ∃ g, env.getCompatibleExtension ident v = .ok g)
    (hsys : ∀ installed ∈ installedAll,
      installed.type ≠ ExtensionType.System) :
    (updateLocalExtensions env added [] updated skipped).isOk = true := by
  unfold updateLocalExtensions
  by_cases hb : (added.isEmpty && updated.isEmpty) = true
  · simp only [hb]
    rfl
  · rw [if_neg hb]
    obtain ⟨res, hres⟩ := processItems_ok env (added ++ updated) [] []
      (fun e _ => processItem_ok env e installedAll hall hgal hsys)
    obtain ⟨rm, ad⟩ := res
    rw [hres]
    rfl

/-- Witness for C4 amended: with a gallery that resolves every identity and
an install collaborator that always throws, the batch completes and the
failing item lands in the skip list. -/
theorem c4_per_item_errors_contained_witness :
    (updateLocalExtensions envC4A [c4aItem] [] [] []).isOk = true ∧
    updateLocalExtensions envC4A [c4aItem] [] [] [] = .ok [c4aItem] := by
  refine ⟨c4_per_item_errors_contained envC4A [c4aItem] [] [] [] rfl
    (fun ident v => ⟨some { identifier := ident, version := "1.0" }, rfl⟩)
    (fun installed hmem => by simp at hmem), rfl⟩

theorem foldSkipped_pairwise (addToSkipped : List SyncExtension) :
    ∀ acc : List SyncExtension,
      acc.Pairwise
        (fun a b => areSameExtensions a.identifier b.identifier = false) →
      (addToSkipped.foldl (fun acc skipped =>
        if acc.any (fun e => areSameExtensions e.identifier skipped.identifier)
        then acc else acc ++ [skipped]) acc).Pairwise
        (fun a b => areSameExtensions a.identifier b.identifier = false) := by
  induction addToSkipped with
  | nil => intro acc h; exact h
  | cons s rest ih =>
    intro acc h
    simp only [List.foldl_cons]
    by_cases hc :
        acc.any (fun e => areSameExtensions e.identifier s.identifier) = true
    · rw [if_pos hc]
      exact ih acc h
    · rw [if_neg hc]
      refine ih _ ?_
      rw [List.pairwise_append]
      refine ⟨h, List.pairwise_singleton _ _, ?_⟩
      intro a ha b hb
      rw [List.mem_singleton] at hb
      subst hb
      have hfalse := List.any_eq_false.1 (by simpa using hc)
      simpa using hfalse a ha

theorem buildNewSkipped_pairwise (skippedExtensions : List SyncExtension)
    (removeFromSkipped : List ExtIdentifier)
    (addToSkipped : List SyncExtension)
    (hdist : skippedExtensions.Pairwise
      (fun a b => areSameExtensions a.identifier b.identifier = false)) :
    (buildNewSkipped skippedExtensions removeFromSkipped
        addToSkipped).Pairwise
      (fun a b => areSameExtensions a.identifier b.identifier = false) := by
  unfold buildNewSkipped
  exact foldSkipped_pairwise addToSkipped _ (hdist.filter _)

/-- C9: the skip list never acquires duplicate identities — for every input
skip list with pairwise-distinct identities, a successful
`updateLocalExtensions` returns a skip list with pairwise-distinct
identities under the identity-equality relation. -/
theorem c9_skip_list_distinct (env : SyncEnv) (added : List SyncExtension)
    (removed : List ExtIdentifier) (updated skipped out : List SyncExtension)
    (hdist : skipped.Pairwise
      (fun a b => areSameExtensions a.identifier b.identifier = false))
    (hok : updateLocalExtensions env added removed updated skipped = .ok out) :
    out.Pairwise
      (fun a b => areSameExtensions a.identifier b.identifier = false) := by
  unfold updateLocalExtensions at hok
  split at hok
  · simp at hok
  · split at hok
    · simp at hok
    · simp only [Except.ok.injEq] at hok
      subst hok
      exact buildNewSkipped_pairwise _ _ _ hdist

/-- Witness for C9: two incoming items whose ids differ only by case are
collapsed to one skip-list entry next to a distinct retained entry. -/
theorem c9_skip_list_distinct_witness :
    ([c9s, c9x] : List SyncExtension).Pairwise
      (fun a b => areSameExtensions a.identifier b.identifier = false) :=
  c9_skip_list_distinct envC9 [c9x, c9y] [] [] [c9s] [c9s, c9x]
    (List.pairwise_singleton _ _) rfl

theorem applyLocalStep_events (env : SyncEnv) (p : PreviewResult)
    (sk : List SyncExtension) (lE : List SyncEvent)
    (h : applyLocalStep env p = .ok (sk, lE)) :
    lE = [] ∨ lE = [SyncEvent.backupLocal p.localExtensions] := by
  unfold applyLocalStep at h
  split at h
  · split at h
    · simp at h
    · simp only [Except.ok.injEq, Prod.mk.injEq] at h
      exact Or.inr h.2.symm
  · simp only [Except.ok.injEq, Prod.mk.injEq] at h
    exact Or.inl h.2.symm

theorem applyRemoteStep_events (env : SyncEnv) (p : PreviewResult)
    (forcePush : Bool) (ru : RemoteUserData) (rE : List SyncEvent)
    (h : applyRemoteStep env p forcePush = .ok (ru, rE)) :
    (p.remote = none ∧ rE = [] ∧ ru = p.remoteUserData) ∨
    (∃ content newRef, p.remote = some content ∧
      rE = [SyncEvent.remoteWrite content
        (if forcePush then none else some p.remoteUserData.ref)] ∧
      ru = { ref := newRef,
             syncData := some { version := extensionsVersion,
                                content := content } }) := by
  unfold applyRemoteStep at h
  split at h
  next content heqr =>
    split at h
    next err heqw => simp at h
    next newRef heqw =>
      simp only [Except.ok.injEq, Prod.mk.injEq] at h
      exact Or.inr ⟨content, newRef, heqr, h.2.symm, h.1.symm⟩
  next heqr =>
    simp only [Except.ok.injEq, Prod.mk.injEq] at h
    exact Or.inl ⟨heqr, h.2.symm, h.1.symm⟩

theorem syncApply_anatomy (env : SyncEnv) (p : PreviewResult)
    (forcePush : Bool) (o : ApplyOut) (aevs : List SyncEvent)
    (h : syncApply env p forcePush = .ok (o, aevs)) :
    ∃ localEvents remoteEvents,
      aevs = localEvents ++ remoteEvents ++
        (if (p.lastSyncUserData.map fun l => l.ref) = some o.remoteUserData.ref
         then ([] : List SyncEvent)
         else [SyncEvent.lastSyncUpdated o.remoteUserData.ref
            o.skippedExtensions]) ∧
      (localEvents = [] ∨
        localEvents = [SyncEvent.backupLocal p.localExtensions]) ∧
      ((p.remote = none ∧ remoteEvents = []) ∨
        (∃ content newRef, p.remote = some content ∧
          remoteEvents = [SyncEvent.remoteWrite content
            (if forcePush then none else some p.remoteUserData.ref)] ∧
          o.remoteUserData =
            { ref := newRef,
              syncData := some { version := extensionsVersion,
                                 content := content } })) := by
  unfold syncApply at h
  split at h
  next err heq => simp at h
  next localPart heq =>
    split at h
    next err heq2 => simp at h
    next remotePart heq2 =>
      simp only [Except.ok.injEq, Prod.mk.injEq] at h
      obtain ⟨ho, haevs⟩ := h
      subst ho
      subst haevs
      obtain ⟨sk, lE⟩ := localPart
      obtain ⟨ru, rE⟩ := remotePart
      exact ⟨lE, rE, rfl, applyLocalStep_events env p sk lE heq,
        Or.imp (fun hx => ⟨hx.1, hx.2.1⟩) id
          (applyRemoteStep_events env p forcePush ru rE heq2)⟩

theorem syncApply_write (env : SyncEnv) (p : PreviewResult)
    (forcePush : Bool) (o : ApplyOut) (aevs : List SyncEvent)
    (c : List SyncExtension) (r : Option String)
    (h : syncApply env p forcePush = .ok (o, aevs))
    (hw : SyncEvent.remoteWrite c r ∈ aevs) :
    p.remote = some c ∧
      r = (if forcePush then none else some p.remoteUserData.ref) := by
  obtain ⟨lE, rE, haevs, hl, hr⟩ := syncApply_anatomy env p forcePush o aevs h
  subst haevs
  rcases List.mem_append.1 hw with hm | hm
  · rcases List.mem_append.1 hm with hm | hm
    · exfalso
      rcases hl with hl | hl <;> subst hl <;> simp at hm
    · rcases hr with ⟨_, hre⟩ | ⟨content, newRef, hsome, hre, _⟩
      · subst hre
        simp at hm
      · subst hre
        rw [List.mem_singleton] at hm
        simp only [SyncEvent.remoteWrite.injEq] at hm
        exact ⟨hm.1 ▸ hsome, hm.2⟩
  · exfalso
    by_cases hc : (p.lastSyncUserData.map fun l => l.ref) =
        some o.remoteUserData.ref
    · rw [if_pos hc] at hm
      simp at hm
    · rw [if_neg hc] at hm
      simp at hm

/-- C6: `push` invokes the merge with the local items authoritative — the
remote input, the last-sync input and the skip list are all absent/empty —
and any remote write it performs is issued with a `null` expected
reference, so the remote snapshot is created or overwritten regardless of
the store's current reference. -/
theorem c6_push_unconditional (env : SyncEnv) (evs : List SyncEvent)
    (installed : List LocalExtension) (disabled : List ExtIdentifier)
    (c : List SyncExtension) (r : Option String)
    (henabled : env.enabled = true)
    (hall : env.getInstalledAll = .ok installed)
    (hdis : env.getDisabledExtensions = .ok disabled)
    (hok : push env = .ok evs)
    (hw : SyncEvent.remoteWrite c r ∈ evs) :
    evs.head? = some (SyncEvent.mergeCalled
      (getLocalExtensions installed disabled) none none []) ∧ r = none := by
  unfold push at hok
  rw [if_neg (by simp [henabled])] at hok
  split at hok
  next err heq =>
    rw [hall] at heq
    simp at heq
  next installed0 heq =>
    rw [hall] at heq
    simp only [Except.ok.injEq] at heq
    subst heq
    split at hok
    next err heq2 =>
      rw [hdis] at heq2
      simp at heq2
    next disabled0 heq2 =>
      rw [hdis] at heq2
      simp only [Except.ok.injEq] at heq2
      subst heq2
      dsimp only at hok
      split at hok
      next err heqA => simp at hok
      next pr heqA =>
        obtain ⟨o, applyEvents⟩ := pr
        simp only [Except.ok.injEq] at hok
        subst hok
        refine ⟨rfl, ?_⟩
        rcases List.mem_cons.1 hw with hm | hm
        · simp at hm
        · have := (syncApply_write env _ true o applyEvents c r heqA hm).2
          simpa using this

/-- Witness for C6: a push over one installed user extension writes the
mirrored local list with a `null` expected reference. -/
theorem c6_push_unconditional_witness :
    ([SyncEvent.mergeCalled (getLocalExtensions [lxC6] []) none none [],
      SyncEvent.remoteWrite (getLocalExtensions [lxC6] []) none,
      SyncEvent.lastSyncUpdated "r1" []] : List SyncEvent).head? =
      some (SyncEvent.mergeCalled (getLocalExtensions [lxC6] [])
        none none []) ∧
    (none : Option String) = none :=
  c6_push_unconditional envC6
    [SyncEvent.mergeCalled (getLocalExtensions [lxC6] []) none none [],
      SyncEvent.remoteWrite (getLocalExtensions [lxC6] []) none,
      SyncEvent.lastSyncUpdated "r1" []]
    [lxC6] [] (getLocalExtensions [lxC6] []) none rfl rfl rfl rfl (by simp)

/-- C7 fails as stated: the apply step serializes the merge result order
unchanged — `JSON.stringify(remote)`, without the `format` sort — so a
cycle whose merge output lists a uuid-carrying item before a uuid-less one
writes content that is not in canonical order. -/
theorem c7_canonical_write_counterexample :
    syncApply envC7 pC7 false =
      .ok (c7out, [SyncEvent.remoteWrite [c7b, c7a] (some "r1"),
        SyncEvent.lastSyncUpdated "r2" []]) ∧
    ¬ canonicallyOrdered [c7b, c7a] := by
  refine ⟨rfl, ?_⟩
  intro hord
  have h := (List.pairwise_cons.1 hord).1 c7a (by simp)
  rcases h with h | ⟨h, _⟩
  · simp [uuidRank, c7b, c7a] at h
  · simp [uuidRank, c7b, c7a] at h

/-- C7 amended: the canonical order — items without a uuid before items
with one, then lexicographically by id — is produced by the sort in
`format`, which serves `resolveContent` (display); the apply step writes
the merge result list unchanged, so a written payload is canonical exactly
when the merge output already is. -/
theorem c7_canonical_format_amended (exts : List SyncExtension)
    (env : SyncEnv) (p : PreviewResult) (forcePush : Bool) (o : ApplyOut)
    (aevs : List SyncEvent) (c : List SyncExtension) (r : Option String)
    (h : syncApply env p forcePush = .ok (o, aevs))
    (hw : SyncEvent.remoteWrite c r ∈ aevs) :
    canonicallyOrdered (formatList exts) ∧ (formatList exts).Perm exts ∧
    p.remote = some c :=
  ⟨List.sorted_insertionSort canonLE exts,
    List.perm_insertionSort canonLE exts,
    (syncApply_write env p forcePush o aevs c r h hw).1⟩

/-- Witness for C7 amended at the counterexample cycle: the formatted list
is canonical and a permutation of its input, and the written content is
exactly the merge result. -/
theorem c7_canonical_format_amended_witness :
    canonicallyOrdered (formatList [c7b, c7a]) ∧
    (formatList [c7b, c7a]).Perm [c7b, c7a] ∧
    pC7.remote = some [c7b, c7a] :=
  c7_canonical_format_amended [c7b, c7a] envC7 pC7 false c7out
    [SyncEvent.remoteWrite [c7b, c7a] (some "r1"),
      SyncEvent.lastSyncUpdated "r2" []] [c7b, c7a] (some "r1") rfl (by simp)

/-- C8 fails as stated: a cycle that changes only local state — here the
skip list grows from empty to one entry while the remote is untouched and
the last-sync reference already equals the remote reference — persists no
new last-sync snapshot, because the apply step persists only when
`lastSyncUserData?.ref !== remoteUserData.ref`. -/
theorem c8_last_sync_counterexample :
    pC8.hasLocalChanged = true ∧
    pC8.skippedExtensions = [] ∧
    syncApply envC8 pC8 false = .ok (c8out, [SyncEvent.backupLocal []]) ∧
    c8out.skippedExtensions = [c8item] ∧
    SyncEvent.lastSyncUpdated "r1" [c8item] ∉
      [SyncEvent.backupLocal ([] : List SyncExtension)] :=
  ⟨rfl, rfl, rfl, rfl, by simp⟩

/-- C8 amended: the apply step persists a new last-sync snapshot — carrying
the final remote reference and the skip list resulting from the local
apply — exactly when the previous last-sync reference differs from the
final remote reference (always true after a remote write returning a fresh
reference, and when no snapshot exists yet); a cycle changing only local
state while the references agree persists nothing. -/
theorem c8_last_sync_amended (env : SyncEnv) (p : PreviewResult)
    (forcePush : Bool) (o : ApplyOut) (aevs : List SyncEvent)
    (h : syncApply env p forcePush = .ok (o, aevs)) :
    SyncEvent.lastSyncUpdated o.remoteUserData.ref o.skippedExtensions ∈ aevs
      ↔ (p.lastSyncUserData.map fun l => l.ref) ≠
          some o.remoteUserData.ref := by
  obtain ⟨lE, rE, haevs, hl, hr⟩ := syncApply_anatomy env p forcePush o aevs h
  subst haevs
  constructor
  · intro hmem
    rcases List.mem_append.1 hmem with hm | hm
    · exfalso
      rcases List.mem_append.1 hm with hm | hm
      · rcases hl with hl | hl <;> subst hl <;> simp at hm
      · rcases hr with ⟨_, hre⟩ | ⟨content, newRef, _, hre, _⟩ <;>
          subst hre <;> simp at hm
    · by_cases hc : (p.lastSyncUserData.map fun l => l.ref) =
          some o.remoteUserData.ref
      · rw [if_pos hc] at hm
        simp at hm
      · exact hc
  · intro hne
    refine List.mem_append.2 (Or.inr ?_)
    rw [if_neg hne]
    simp

/-- Witness for C8 amended: the same local-only cycle with no pre-existing
snapshot does persist, because the references differ. -/
theorem c8_last_sync_amended_witness :
    SyncEvent.lastSyncUpdated c8out.remoteUserData.ref
        c8out.skippedExtensions ∈
      [SyncEvent.backupLocal ([] : List SyncExtension),
        SyncEvent.lastSyncUpdated "r1" [c8item]] ↔
      (pC8B.lastSyncUserData.map fun l => l.ref) ≠
        some c8out.remoteUserData.ref :=
  c8_last_sync_amended envC8 pC8B false c8out
    [SyncEvent.backupLocal [], SyncEvent.lastSyncUpdated "r1" [c8item]] rfl

end ModifiedVSCode
